import Mathlib

/-!
# Verification of the HRMS employee-checkin and leave-balance report logic

A shallow embedding of the two source files of the repository:

* `hrms/hr/doctype/employee_checkin/employee_checkin.py`
* `hrms/hr/report/employee_leave_balance/employee_leave_balance.py`

Timestamps (Python `datetime` values) are modelled as integers counting
seconds from an arbitrary midnight; `datetime` comparison and subtraction
are integer comparison and subtraction, and the time-of-day of a timestamp
`t` is `t % 86400` (Python `%` and Lean's `Int.emod` agree for a positive
modulus).  A Python `frappe` document is modelled as a structure holding
the fields the code reads, with `Option` for fields that may be `None`.
Database and framework effects are modelled by explicit state passing.
-/

namespace Hrms

/-- Python `round(x, 2)`.  Modelled as rounding half away from zero upwards
(`⌊x·100 + 1/2⌋ / 100`).  CPython rounds the binary double to two decimals
with ties to even; the two disagree only on exact representational ties,
which do not arise for the inputs exercised here. -/
def pyRound2 (x : ℚ) : ℚ := (⌊x * 100 + 1/2⌋ : ℚ) / 100

/-- Python `round(x, 1)` (used for `total_leave_days` in the report). -/
def pyRound1 (x : ℚ) : ℚ := (⌊x * 10 + 1/2⌋ : ℚ) / 10

/-- `time_diff_in_hours(start, end)` from `employee_checkin.py`:
`round(float((end - start).total_seconds()) / 3600, 2)`. -/
def time_diff_in_hours (start stop : ℤ) : ℚ :=
  pyRound2 (((stop - start : ℤ) : ℚ) / 3600)

/-- One `Employee Checkin` row as consumed by the working-hours functions:
a timestamp, an optional log type (`"IN"` / `"OUT"` / absent), and the
shift-boundary timestamps carried on the row. -/
structure CheckinLog where
  time : ℤ
  log_type : Option String
  shift_start : ℤ
  shift_end : ℤ
deriving DecidableEq, Repr

instance : Inhabited CheckinLog := ⟨⟨0, none, 0, 0⟩⟩

/-- `find_index_in_dict(dict_list, key, value)` specialised to the only key
the source ever passes (`"log_type"`):
`next((index for (index, d) in enumerate(dict_list) if d[key] == value), None)`.
A missing `log_type` (`None`) never equals the string `value`. -/
def find_index_in_dict : List CheckinLog → String → Option ℕ
  | [], _ => none
  | l :: ls, v =>
      if l.log_type = some v then some 0
      else (find_index_in_dict ls v).map (· + 1)

/-- The repeated source idiom
`first_in_log_index = find_index_in_dict(logs, "log_type", "IN")` followed by
`logs[first_in_log_index] if first_in_log_index or first_in_log_index == 0 else None`
(the `or index == 0` saves the falsy index `0`). -/
def first_in_log (logs : List CheckinLog) : Option CheckinLog :=
  (find_index_in_dict logs "IN").bind fun i => logs[i]?

/-- The repeated source idiom
`last_out_log_index = find_index_in_dict(reversed(logs), "log_type", "OUT")`
followed by `logs[len(logs) - 1 - last_out_log_index] if ... else None`. -/
def last_out_log (logs : List CheckinLog) : Option CheckinLog :=
  (find_index_in_dict logs.reverse "OUT").bind fun i =>
    logs[logs.length - 1 - i]?

/-- `time_in_range(start, end, value)` from `employee_checkin.py`. -/
def time_in_range (start stop value : ℤ) : Bool :=
  if start ≤ stop then start ≤ value && value ≤ stop
  else start ≤ value || value ≤ stop

/-- `calculate_working_hours_by_shift_type(logs)`.

The function reads two ambient values, `dt.today().weekday() == 5` and
`getdate()`; they enter the model as the parameters `is_saturday` and
`date` (the midnight of the current day), so `saturday_shift_end`
(`dt.combine(date, get_time("12:00:00"))`) is `date + 43200`.
`logs[0]` on an empty list raises `IndexError`, modelled as `none`.
`START_MIDDAY` is 12:00:00 (43200 s) and `END_MIDDAY` 13:30:00 (48600 s);
`datetime.time(out_time.hour, out_time.minute, 0)` is the time of day of
`out_time` truncated to the minute. -/
def calculate_working_hours_by_shift_type (is_saturday : Bool) (date : ℤ)
    (logs : List CheckinLog) : Option (ℚ × Option ℤ × Option ℤ) :=
  match logs with
  | [] => none
  | l0 :: rest =>
    let logs := l0 :: rest
    let lunch_time : ℚ := 3/2
    let saturday_shift_end : ℤ := date + 43200
    let shift_start := l0.shift_start
    let shift_end := if is_saturday = false then l0.shift_end else saturday_shift_end
    match first_in_log logs, last_out_log logs with
    | some fi, some lo =>
      let in_time := fi.time
      let out_time := lo.time
      if in_time ≥ shift_end then some (0, some in_time, some out_time)
      else
        let total_hours := time_diff_in_hours in_time out_time
        let total_hours :=
          if in_time < shift_start then
            total_hours - time_diff_in_hours in_time shift_start
          else total_hours
        let total_hours :=
          if out_time > shift_end then
            total_hours - time_diff_in_hours shift_end out_time
          else total_hours
        let last_out_time := out_time % 86400 / 60 * 60
        let is_midday_time_range := time_in_range 43200 48600 last_out_time
        let is_after_early_afternoon := 48600 < last_out_time
        let total_hours :=
          if is_midday_time_range = false ∧ is_after_early_afternoon ∧ is_saturday = false
          then total_hours - lunch_time
          else total_hours
        some (total_hours, some in_time, some out_time)
    | _, _ => some (0, none, none)

/-- Loop state of the `'Every Valid Check-in and Check-out'` branch under
`'Strictly based on Log Type in Employee Checkin'`: the pending `in_log` and
`out_log`, the `in_time`/`out_time` seen so far, and the accumulated total. -/
structure StrictLoopState where
  in_log : Option CheckinLog
  out_log : Option CheckinLog
  in_time : Option ℤ
  out_time : Option ℤ
  total : ℚ
deriving DecidableEq

/-- The flush block at the top of the loop body:
`if in_log and out_log: if not in_time: ...; out_time = ...; total_hours += ...;
in_log = out_log = None`. -/
def flushPair (s : StrictLoopState) : StrictLoopState :=
  match s.in_log, s.out_log with
  | some i, some o =>
      { in_log := none
        out_log := none
        in_time := if s.in_time = none then some i.time else s.in_time
        out_time := some o.time
        total := s.total + time_diff_in_hours i.time o.time }
  | _, _ => s

/-- The remainder of the loop body after the flush block:
`if not in_log: in_log = log if log.log_type == "IN" else None; ... elif not
out_log: out_log = log if log.log_type == "OUT" else None`. -/
def strictStepRest (s : StrictLoopState) (log : CheckinLog) : StrictLoopState :=
  if s.in_log = none then
    let inl := if log.log_type = some "IN" then some log else none
    { s with
      in_log := inl
      in_time := if inl ≠ none ∧ s.in_time = none then some log.time else s.in_time }
  else if s.out_log = none then
    { s with out_log := if log.log_type = some "OUT" then some log else none }
  else s

/-- One iteration of `for log in logs` in the strict every-valid branch. -/
def strictStep (s : StrictLoopState) (log : CheckinLog) : StrictLoopState :=
  strictStepRest (flushPair s) log

/-- The block after the loop:
`if in_log and out_log: out_time = out_log.time; total_hours += ...`
(this final flush does not touch `in_time`). -/
def finalFlush (s : StrictLoopState) : StrictLoopState :=
  match s.in_log, s.out_log with
  | some i, some o =>
      { s with
        out_time := some o.time
        total := s.total + time_diff_in_hours i.time o.time }
  | _, _ => s

/-- The whole strict every-valid computation: fold the loop over the logs
from the all-`None` initial state, then run the post-loop flush. -/
def runStrictEveryValid (logs : List CheckinLog) : StrictLoopState :=
  finalFlush (logs.foldl strictStep ⟨none, none, none, none, 0⟩)

/-- The `while len(logs) >= 2: total_hours += time_diff_in_hours(logs[0].time,
logs[1].time); del logs[:2]` loop of the alternating every-valid branch,
with the running `total_hours` as accumulator. -/
def alternating_pairs_loop (total : ℚ) : List CheckinLog → ℚ
  | a :: b :: rest => alternating_pairs_loop (total + time_diff_in_hours a.time b.time) rest
  | _ => total

/-- `calculate_working_hours(logs, check_in_out_type, working_hours_calc_type)`.

`logs[0]` on an empty list raises `IndexError` in the alternating branch,
modelled as `none`; every other input returns `some` triple
`(total_hours, in_time, out_time)`. -/
def calculate_working_hours (logs : List CheckinLog)
    (check_in_out_type working_hours_calc_type : String) :
    Option (ℚ × Option ℤ × Option ℤ) :=
  if check_in_out_type = "Alternating entries as IN and OUT during the same shift" then
    match logs with
    | [] => none
    | l0 :: rest =>
      let last := (l0 :: rest).getLast (List.cons_ne_nil l0 rest)
      let in_time := l0.time
      let out_time : Option ℤ :=
        if 2 ≤ (l0 :: rest).length then some last.time else none
      if working_hours_calc_type = "First Check-in and Last Check-out" then
        some (time_diff_in_hours in_time last.time, some in_time, out_time)
      else if working_hours_calc_type = "Every Valid Check-in and Check-out" then
        some (alternating_pairs_loop 0 (l0 :: rest), some in_time, out_time)
      else
        some (0, some in_time, out_time)
  else if check_in_out_type = "Strictly based on Log Type in Employee Checkin" then
    if working_hours_calc_type = "First Check-in and Last Check-out" then
      match first_in_log logs, last_out_log logs with
      | some fi, some lo =>
          some (time_diff_in_hours fi.time lo.time, some fi.time, some lo.time)
      | _, _ => some (0, none, none)
    else if working_hours_calc_type = "Every Valid Check-in and Check-out" then
      let s := runStrictEveryValid logs
      some (s.total, s.in_time, s.out_time)
    else
      some (0, none, none)
  else
    some (0, none, none)

/-! ## Specification-side definitions for the working-hours claims

These definitions follow the words of the specification and of the claims;
the theorems below compare them with the embedded source functions. -/

/-- An IN punch: a row whose `log_type` is the string `"IN"`. -/
def isInPunch (l : CheckinLog) : Bool := decide (l.log_type = some "IN")

/-- An OUT punch: a row whose `log_type` is the string `"OUT"`. -/
def isOutPunch (l : CheckinLog) : Bool := decide (l.log_type = some "OUT")

/-- The timestamp of the first IN punch of the list, if any. -/
def specFirstInTime (logs : List CheckinLog) : Option ℤ :=
  (logs.find? isInPunch).map (·.time)

/-- The timestamp of the last OUT punch of the list, if any. -/
def specLastOutTime (logs : List CheckinLog) : Option ℤ :=
  (logs.reverse.find? isOutPunch).map (·.time)

/-- Greedy strict-log-type pairing: each IN punch is matched with the next
following OUT punch; punches in between are ignored, and pairing resumes
after the matched OUT.  The first component of the state is the pending
unmatched IN punch. -/
def specStrictPairsAux : Option CheckinLog → List CheckinLog → List (CheckinLog × CheckinLog)
  | _, [] => []
  | none, l :: ls =>
      if isInPunch l then specStrictPairsAux (some l) ls
      else specStrictPairsAux none ls
  | some i, l :: ls =>
      if isOutPunch l then (i, l) :: specStrictPairsAux none ls
      else specStrictPairsAux (some i) ls

/-- The successive IN/OUT pairs of a log list under the strict policy. -/
def specStrictPairs (logs : List CheckinLog) : List (CheckinLog × CheckinLog) :=
  specStrictPairsAux none logs

/-- The sum of the time deltas of a list of punch pairs. -/
def specPairsTotal (ps : List (CheckinLog × CheckinLog)) : ℚ :=
  (ps.map fun p => time_diff_in_hours p.1.time p.2.time).sum

/-- The OUT timestamp of the last completed strict pair, if any. -/
def specLastPairOutTime (logs : List CheckinLog) : Option ℤ :=
  (specStrictPairs logs).getLast?.map (·.2.time)

/-- Alternating every-valid total as the claim words it: the sum of the
time deltas of the consecutive pairs `(logs[2*i], logs[2*i+1])`. -/
def specAlternatingTotal (logs : List CheckinLog) : ℚ :=
  ∑ i ∈ Finset.range (logs.length / 2),
    time_diff_in_hours (logs.getD (2 * i) default).time (logs.getD (2 * i + 1) default).time

/-- Shift-clipped total as the code realises it: the first-IN-to-last-OUT
delta, minus the before-shift delta when the first IN precedes the shift
start, minus the after-shift delta when the last OUT exceeds the shift end
(each delta rounded to two decimals separately), and `0` when the first IN
is at or after the shift end. -/
def specClippedTotal (shift_start shift_end in_time out_time : ℤ) : ℚ :=
  if shift_end ≤ in_time then 0
  else
    time_diff_in_hours in_time out_time
      - (if in_time < shift_start then time_diff_in_hours in_time shift_start else 0)
      - (if shift_end < out_time then time_diff_in_hours shift_end out_time else 0)

/-- Lunch deduction as the code realises it: 1.5 hours exactly when the
time of day of the last OUT punch, truncated to the minute, is strictly
after 13:30:00 and the day is not a Saturday. -/
def specLunchDeduction (is_saturday : Bool) (out_time : ℤ) : ℚ :=
  if 48600 < out_time % 86400 / 60 * 60 ∧ is_saturday = false then 3/2 else 0

/-- The whole by-shift-type total: clipped total minus lunch deduction,
with no deduction on the early-return path (first IN at or after the
effective shift end). -/
def specShiftTotal (is_saturday : Bool) (shift_start shift_end in_time out_time : ℤ) : ℚ :=
  if shift_end ≤ in_time then 0
  else specClippedTotal shift_start shift_end in_time out_time
        - specLunchDeduction is_saturday out_time

/-! ## Mutation model for `calculate_working_hours` (frame claim)

Python lists are heap cells mutated through references.  The only
statements of `calculate_working_hours` that mutate a list are
`del logs[:2]` in the alternating every-valid branch, and they run after
`logs = logs[:]` rebinds the local name to a fresh copy.  The heap is a
list of cells; cell `0` is the list the caller passed in. -/

/-- Net effect of the `while len(logs) >= 2: ...; del logs[:2]` loop on the
cell the local name points at. -/
def del_pairs_loop : List CheckinLog → List CheckinLog
  | _ :: _ :: rest => del_pairs_loop rest
  | xs => xs

/-- The list the caller sees after `calculate_working_hours` returns, per
branch.  In the alternating every-valid branch the heap holds the caller's
cell and the fresh copy made by `logs = logs[:]`; the deletion loop mutates
the cell the rebound local name points at.  No other branch contains a
statement that mutates a list. -/
def caller_list_after_calculate_working_hours (logs : List CheckinLog)
    (check_in_out_type working_hours_calc_type : String) : List CheckinLog :=
  if check_in_out_type = "Alternating entries as IN and OUT during the same shift"
      ∧ working_hours_calc_type = "Every Valid Check-in and Check-out" then
    let heap : List (List CheckinLog) := [logs]
    let heap := heap ++ [heap.getD 0 []]
    let localCell := heap.length - 1
    let heap := heap.set localCell (del_pairs_loop (heap.getD localCell []))
    heap.getD 0 []
  else logs

/-! ## `EmployeeCheckin.validate_duplicate_log` and `EmployeeCheckin.fetch_shift` -/

/-- An `Employee Checkin` row as seen by the duplicate check:
`frappe.db.exists` filters on `employee`, `time`, `name` and `log_type`. -/
structure CheckinRow where
  name : String
  employee : String
  time : ℤ
  log_type : Option String
deriving DecidableEq, Repr

/-- The filter dict passed to `frappe.db.exists`: same `employee`, same
`time`, a different `name`, and the same `log_type`. -/
def duplicate_log_filter (self d : CheckinRow) : Bool :=
  decide (d.employee = self.employee ∧ d.time = self.time
    ∧ d.name ≠ self.name ∧ d.log_type = self.log_type)

/-- `validate_duplicate_log(self)`: `frappe.db.exists("Employee Checkin",
{employee, time, name != self.name, log_type})`, then `frappe.throw` when a
matching document exists.  The table is the explicit argument `db`;
`frappe.db.exists` returns the first matching row's name. -/
def validate_duplicate_log (db : List CheckinRow) (self : CheckinRow) :
    Except String Unit :=
  match db.find? (duplicate_log_filter self) with
  | some doc =>
      .error ("This employee already has a log with the same timestamp." ++ doc.name)
  | none => .ok ()

/-- Modelled from the spec: the value returned by
`get_actual_start_end_datetime_of_shift(employee, time, True)`.  That
function lives in `shift_assignment.py`, which is not part of this
repository snapshot; per the spec a shift is "a configured work-time
window (start/end, grace periods) an employee is assigned to", and the
result carries the shift type (name and its
`determine_check_in_and_check_out` policy), the actual window and the
scheduled window.  `fetch_shift` receives it as an input: `some` when an
active shift covers the punch time, `none` otherwise. -/
structure ShiftTimings where
  shift_type_name : String
  determine_check_in_and_check_out : String
  actual_start : ℤ
  actual_end : ℤ
  start_datetime : ℤ
  end_datetime : ℤ
deriving DecidableEq, Repr

/-- An `Employee Checkin` document with the fields `fetch_shift` touches. -/
structure EmployeeCheckin where
  name : String
  employee : String
  time : ℤ
  log_type : Option String
  skip_auto_attendance : Bool
  attendance : Option String
  shift : Option String
  shift_actual_start : Option ℤ
  shift_actual_end : Option ℤ
  shift_start : Option ℤ
  shift_end : Option ℤ
deriving DecidableEq, Repr

/-- `EmployeeCheckin.fetch_shift(self)` with the shift-resolution result as
input.  `frappe.throw` raises, modelled as `Except.error`. -/
def fetch_shift (self : EmployeeCheckin)
    (shift_actual_timings : Option ShiftTimings) : Except String EmployeeCheckin :=
  match shift_actual_timings with
  | some st =>
      if st.determine_check_in_and_check_out
            = "Strictly based on Log Type in Employee Checkin"
          ∧ self.log_type = none ∧ self.skip_auto_attendance = false then
        .error ("Log Type is required for check-ins falling in the shift: "
          ++ st.shift_type_name ++ ".")
      else if self.attendance = none then
        .ok { self with
              shift := some st.shift_type_name
              shift_actual_start := some st.actual_start
              shift_actual_end := some st.actual_end
              shift_start := some st.start_datetime
              shift_end := some st.end_datetime }
      else .ok self
  | none => .ok { self with shift := none }

/-! ## `mark_attendance_and_link_log` and its database effects -/

/-- A Python exception escaping a modelled function. -/
inductive PyError
  | validationError (msg : String)
  | typeError (msg : String)
  | indexError (msg : String)
deriving DecidableEq, Repr

/-- A reference to a checkin row: `mark_attendance_and_link_log` reads only
`x.name` and `logs[0].employee` from its `logs`. -/
structure CheckinRef where
  name : String
  employee : String
deriving DecidableEq, Repr

/-- A submitted `Attendance` document. -/
structure AttendanceRecord where
  name : String
  employee : String
  attendance_date : ℤ
  status : String
  working_hours : Option ℚ
  shift : Option String
  late_entry : Bool
  early_exit : Bool
  in_time : Option ℤ
  out_time : Option ℤ
deriving DecidableEq, Repr

/-- The database state the checkin module mutates: submitted attendance
records, the names of checkins with `skip_auto_attendance = 1`, the
checkin-to-attendance links, and the stored comments
(reference name, content). -/
structure HrDb where
  attendances : List AttendanceRecord
  skipped_checkins : List String
  attendance_links : List (String × String)
  comments : List (String × String)
deriving DecidableEq, Repr

/-- `skip_attendance_in_checkins(log_names)`: set
`skip_auto_attendance = 1` on every named checkin. -/
def skip_attendance_in_checkins (log_names : List String) (db : HrDb) : HrDb :=
  { db with skipped_checkins := db.skipped_checkins ++ log_names }

/-- `update_attendance_in_checkins(log_names, attendance_id)`: link every
named checkin to the attendance. -/
def update_attendance_in_checkins (log_names : List String)
    (attendance_id : String) (db : HrDb) : HrDb :=
  { db with attendance_links :=
      db.attendance_links ++ log_names.map (fun n => (n, attendance_id)) }

/-- The FIRST definition of `add_comment_in_checkins(log_names,
error_message)` in the source.  It is dead code twice over: a later
definition of the same name shadows it, and its own body only formats the
local `text` and never stores a comment, so it leaves the database
unchanged. -/
def add_comment_in_checkins_shadowed (log_names : List String)
    (error_message : String) (db : HrDb) : HrDb :=
  let _ := log_names
  let _ := error_message
  db

/-- The SECOND definition of `add_comment_in_checkins(log_names, duplicate,
overlapping)` in the source, the one the name resolves to at call time: it
stores one comment per named checkin, with text naming the duplicate or
overlapping attendance record. -/
def add_comment_in_checkins (log_names : List String)
    (duplicate : List AttendanceRecord) (overlapping : Option AttendanceRecord)
    (db : HrDb) : HrDb :=
  let text :=
    match duplicate with
    | d :: _ =>
        "Auto Attendance skipped due to duplicate attendance record: " ++ d.name
    | [] =>
        "Auto Attendance skipped due to overlapping attendance record: "
          ++ (match overlapping with | some o => o.name | none => "")
  { db with comments := db.comments ++ log_names.map (fun n => (n, text)) }

/-- The call `add_comment_in_checkins(log_names, e)` inside
`handle_attendance_exception`.  At call time the name is bound to the
second definition, whose signature is
`(log_names, duplicate, overlapping)`; a call with two positional
arguments binds `log_names` and `duplicate` and leaves the required
parameter `overlapping` unbound, so Python raises a `TypeError` before the
body runs. -/
def call_add_comment_in_checkins_two_args (log_names : List String)
    (error_message : String) (db : HrDb) : Except PyError HrDb :=
  let _ := log_names
  let _ := error_message
  let _ := db
  .error (.typeError
    "add_comment_in_checkins() missing 1 required positional argument: overlapping")

/-- `handle_attendance_exception(log_names, e)`: roll back to the
`attendance_creation` savepoint (restoring the snapshot taken at
`frappe.db.savepoint`), clear messages (no modelled state), mark the
checkins skipped, then call `add_comment_in_checkins` with two arguments —
which raises, so the returned `Except` carries the `TypeError` and the
database keeps the skip marks applied before the failing call. -/
def handle_attendance_exception (log_names : List String)
    (error_message : String) (snapshot : HrDb) : Except PyError Unit × HrDb :=
  let db := snapshot
  let db := skip_attendance_in_checkins log_names db
  match call_add_comment_in_checkins_two_args log_names error_message db with
  | .error e => (.error e, db)
  | .ok db2 => (.ok (), db2)

/-- `mark_attendance_and_link_log(logs, attendance_status, attendance_date,
...)`.  `submit_raises` is `some msg` when `Attendance(...).submit()`
raises `frappe.ValidationError msg` (the Attendance doctype's validation
is framework code outside this repository); `new_name` is the
framework-assigned name of the new attendance document.  The result pairs
the function's outcome (`Except` for a propagated exception, the created
attendance or `None` otherwise) with the database state at exit. -/
def mark_attendance_and_link_log (logs : List CheckinRef)
    (attendance_status : String) (attendance_date : ℤ)
    (working_hours : Option ℚ) (late_entry early_exit : Bool)
    (in_time out_time : Option ℤ) (shift : Option String)
    (submit_raises : Option String) (new_name : String) (db : HrDb) :
    Except PyError (Option AttendanceRecord) × HrDb :=
  let log_names := logs.map (·.name)
  match logs with
  | [] => (.error (.indexError "list index out of range"), db)
  | l0 :: _ =>
    let employee := l0.employee
    if attendance_status = "Skip" then
      (.ok none, skip_attendance_in_checkins log_names db)
    else if attendance_status = "Present" ∨ attendance_status = "Absent"
        ∨ attendance_status = "Half Day" then
      let snapshot := db
      match submit_raises with
      | some msg =>
          match handle_attendance_exception log_names msg snapshot with
          | (.error e, db2) => (.error e, db2)
          | (.ok _, db2) => (.ok none, db2)
      | none =>
          let attendance : AttendanceRecord :=
            { name := new_name, employee := employee
              attendance_date := attendance_date, status := attendance_status
              working_hours := working_hours, shift := shift
              late_entry := late_entry, early_exit := early_exit
              in_time := in_time, out_time := out_time }
          let db2 := { db with attendances := db.attendances ++ [attendance] }
          let db2 :=
            if attendance_status = "Absent" then
              { db2 with comments := db2.comments ++ [(new_name,
                  "Employee was marked Absent for not meeting the working hours threshold.")] }
            else db2
          let db2 := update_attendance_in_checkins log_names new_name db2
          (.ok (some attendance), db2)
    else
      (.error (.validationError
        (attendance_status ++ " is an invalid Attendance Status.")), db)

/-! ## The employee-leave-balance report -/

/-- An `Employee` row with the fields the report touches. -/
structure Employee where
  name : String
  employee_name : String
  department : String
  user_id : String
  status : String
  company : String
deriving DecidableEq, Repr

/-- A `Leave Application` row with the fields the report touches.
`total_leave_days` is numeric in the store; `get_data` renders it as
`str(round(..., 1))`. -/
structure LeaveApplication where
  employee_name : String
  leave_type : String
  from_date : ℤ
  to_date : ℤ
  leave_approver_name : String
  status : String
  total_leave_days : ℚ
  posting_date : ℤ
deriving DecidableEq, Repr

/-- The report filters (`frappe._dict`; absent keys read as `None`,
a missing boolean reads as falsy). -/
structure ReportFilters where
  from_date : ℤ
  to_date : ℤ
  employee : Option String
  company : Option String
  department : Option String
  consolidate_employee_name : Bool
deriving DecidableEq, Repr

/-- The tables the report reads. -/
structure ReportDb where
  employees : List Employee
  leave_applications : List LeaveApplication
deriving DecidableEq, Repr

/-- One column definition of the report. -/
structure ReportColumn where
  label : String
  fieldtype : String
  fieldname : String
  width : ℕ
  options : Option String
deriving DecidableEq, Repr

/-- `get_columns()` of `employee_leave_balance.py` (the active, uncommented
definition). -/
def get_columns : List ReportColumn :=
  [ { label := "Nhân viên", fieldtype := "Dynamic Link",
      fieldname := "employee_name", width := 180, options := some "employee" },
    { label := "Lý do nghỉ", fieldtype := "Link",
      fieldname := "leave_type", width := 180, options := some "Leave Type" },
    { label := "Bắt đầu", fieldtype := "Date",
      fieldname := "from_date", width := 130, options := some "From Date" },
    { label := "Kết thúc", fieldtype := "Date",
      fieldname := "to_date", width := 130, options := some "To Date" },
    { label := "Người duyệt", fieldtype := "Data",
      fieldname := "leave_approver_name", width := 190,
      options := some "Leave Approver Name" },
    { label := "Trạng thái", fieldtype := "Data",
      fieldname := "status", width := 100, options := some "Status" },
    { label := "Tổng ngày nghỉ", fieldtype := "Data",
      fieldname := "total_leave_days", width := 100, options := none },
    { label := "Thời điểm tạo", fieldtype := "Date",
      fieldname := "posting_date", width := 130, options := some "Posting Date" } ]

/-- A data row of the report (a `frappe._dict`; absent keys are `none`).
`total_leave_days` holds the value of `round(leave.total_leave_days, 1)`;
the `str(...)` wrapper only affects display formatting. -/
structure ReportRow where
  employee_name : Option String
  leave_type : Option String
  from_date : Option ℤ
  to_date : Option ℤ
  leave_approver_name : Option String
  status : Option String
  total_leave_days : Option ℚ
  posting_date : Option ℤ
  indent : Option ℕ
deriving DecidableEq, Repr

/-- The employee filter conditions built by `get_conditions(filters)`. -/
structure EmployeeConditions where
  status : String
  name : Option String
  company : Option String
  department : Option String
deriving DecidableEq, Repr

/-- `get_conditions(filters)`: always `status = "Active"`, plus the
`employee`, `company` and `department` filters when present. -/
def get_conditions (filters : ReportFilters) : EmployeeConditions :=
  { status := "Active", name := filters.employee,
    company := filters.company, department := filters.department }

/-- Whether an employee row satisfies the conditions dict passed to
`frappe.get_list("Employee", filters=conditions)`. -/
def employee_matches (c : EmployeeConditions) (emp : Employee) : Bool :=
  decide (emp.status = c.status)
    && (match c.name with | some n => decide (emp.name = n) | none => true)
    && (match c.company with | some v => decide (emp.company = v) | none => true)
    && (match c.department with | some v => decide (emp.department = v) | none => true)

/-- The `frappe.db.get_list("Leave Application", ...)` call of `get_data`:
leave applications of the employee (matched on `employee_name`) whose
`from_date` and `to_date` both lie between the filter dates (SQL `BETWEEN`
is inclusive), ordered by `posting_date desc`. -/
def leaves_for_employee (filters : ReportFilters) (db : ReportDb)
    (emp : Employee) : List LeaveApplication :=
  List.insertionSort (fun a b => b.posting_date ≤ a.posting_date)
    (db.leave_applications.filter fun la =>
      decide (la.employee_name = emp.employee_name
        ∧ filters.from_date ≤ la.from_date ∧ la.from_date ≤ filters.to_date
        ∧ filters.from_date ≤ la.to_date ∧ la.to_date ≤ filters.to_date))

/-- The consolidated-mode header row `{"employee_name": emp.employee_name}`. -/
def header_row (emp : Employee) : ReportRow :=
  { employee_name := some emp.employee_name, leave_type := none,
    from_date := none, to_date := none, leave_approver_name := none,
    status := none, total_leave_days := none, posting_date := none,
    indent := none }

/-- The per-leave data row built in the inner loop of `get_data`. -/
def leave_row (consolidate : Bool) (emp : Employee) (leave : LeaveApplication) :
    ReportRow :=
  { employee_name := if consolidate then none else some emp.employee_name,
    leave_type := some leave.leave_type,
    from_date := some leave.from_date, to_date := some leave.to_date,
    leave_approver_name := some leave.leave_approver_name,
    status := some leave.status,
    total_leave_days := some (pyRound1 leave.total_leave_days),
    posting_date := some leave.posting_date,
    indent := some 1 }

/-- `get_data(filters)` of `employee_leave_balance.py` (the active
definition): loop over the matching employees appending, per employee, a
header row when consolidation applies and one row per fetched leave. -/
def get_data (filters : ReportFilters) (db : ReportDb) : List ReportRow :=
  let employees := db.employees.filter (employee_matches (get_conditions filters))
  let consolidate := decide (1 < employees.length) && filters.consolidate_employee_name
  employees.foldl
    (fun data emp =>
      (data ++ (if consolidate then [header_row emp] else []))
        ++ (leaves_for_employee filters db emp).map (leave_row consolidate emp))
    []

/-- `execute(filters)`: throw when `to_date <= from_date`; otherwise return
`(columns, data, None, charts)` — and `charts` is the literal `None`, the
`get_chart_data` call being commented out in the source. -/
def execute (filters : ReportFilters) (db : ReportDb) :
    Except String (List ReportColumn × List ReportRow × Option Unit × Option Unit) :=
  if filters.to_date ≤ filters.from_date then
    .error "From Date can not be greater than or equal to To Date"
  else
    .ok (get_columns, get_data filters db, none, none)

/-- Specification-side reading of the report body: per matching active
employee, a header row when consolidation applies followed by one data row
per leave application whose dates fall in the filter range. -/
def specReportRows (filters : ReportFilters) (db : ReportDb) : List ReportRow :=
  let employees := db.employees.filter (employee_matches (get_conditions filters))
  let consolidate := decide (1 < employees.length) && filters.consolidate_employee_name
  employees.flatMap fun emp =>
    (if consolidate then [header_row emp] else [])
      ++ (leaves_for_employee filters db emp).map (leave_row consolidate emp)

/-- Whether an `execute` result carries no message and no chart (third and
fourth components both `None`). -/
def noMessageNoChart
    (r : Except String (List ReportColumn × List ReportRow × Option Unit × Option Unit)) :
    Prop :=
  match r with
  | .ok (_, _, m, c) => m = none ∧ c = none
  | .error _ => True

/-! ## Concrete sample inputs used by witnesses and counterexamples -/

/-- A lone OUT punch at timestamp 100. -/
def singleOutLog : CheckinLog := ⟨100, some "OUT", 0, 0⟩

/-- An IN punch at second 0 of a shift starting at second 25. -/
def earlyIn : CheckinLog := ⟨0, some "IN", 25, 100000⟩

/-- An OUT punch at second 50, well before the shift end. -/
def earlyOut : CheckinLog := ⟨50, some "OUT", 25, 100000⟩

/-- An IN punch at 10:00:00 of a 10:00-17:00 shift. -/
def morningIn : CheckinLog := ⟨36000, some "IN", 36000, 61200⟩

/-- An OUT punch at 12:30:00 (in the afternoon, inside the midday window). -/
def middayOut : CheckinLog := ⟨45000, some "OUT", 36000, 61200⟩

/-- An OUT punch at 18:00:00 (after the shift end and after 13:30). -/
def eveningOut : CheckinLog := ⟨64800, some "OUT", 36000, 61200⟩

/-- A checkin document carrying a log type, not yet linked to attendance. -/
def sampleCheckin : EmployeeCheckin :=
  ⟨"HR-CHK-0001", "HR-EMP-0001", 36000, some "IN", false, none,
    none, none, none, none, none⟩

/-- A checkin document with no log type and auto attendance not skipped. -/
def sampleCheckinNoLogType : EmployeeCheckin :=
  ⟨"HR-CHK-0002", "HR-EMP-0001", 36000, none, false, none,
    none, none, none, none, none⟩

/-- A shift whose type determines check-in/out strictly by log type. -/
def sampleStrictShift : ShiftTimings :=
  ⟨"Day Shift", "Strictly based on Log Type in Employee Checkin",
    32400, 64800, 36000, 61200⟩

/-- An active employee for the report samples. -/
def reportEmployee0 : Employee :=
  ⟨"HR-EMP-0001", "Nguyen Van A", "HR", "a@example.com", "Active", "Main"⟩

/-- A leave application of that employee inside the filter range below. -/
def reportLeave0 : LeaveApplication :=
  ⟨"Nguyen Van A", "Annual Leave", 3, 5, "Manager", "Approved", 2, 4⟩

/-- Report filters with `from_date < to_date` and no optional filter set. -/
def reportFilters0 : ReportFilters := ⟨0, 10, none, none, none, false⟩

/-- A one-employee one-leave report database. -/
def reportDb0 : ReportDb := ⟨[reportEmployee0], [reportLeave0]⟩

/-! ## Helper lemmas -/

lemma find_index_in_dict_lt {v : String} :
    ∀ {logs : List CheckinLog} {i : ℕ},
      find_index_in_dict logs v = some i → i < logs.length := by
  intro logs
  induction logs with
  | nil => intro i h; simp [find_index_in_dict] at h
  | cons l ls ih =>
    intro i h
    simp only [List.length_cons]
    by_cases hl : l.log_type = some v
    · simp [find_index_in_dict, hl] at h
      omega
    · simp only [find_index_in_dict, hl, if_false] at h
      obtain ⟨j, hj, rfl⟩ := Option.map_eq_some'.mp h
      have := ih hj
      omega

lemma find_index_in_dict_bind_getElem (v : String) :
    ∀ (logs : List CheckinLog),
      ((find_index_in_dict logs v).bind fun i => logs[i]?)
        = logs.find? (fun l => decide (l.log_type = some v)) := by
  intro logs
  induction logs with
  | nil => simp [find_index_in_dict]
  | cons l ls ih =>
    by_cases hl : l.log_type = some v
    · rw [List.find?_cons_of_pos _ (by simp [hl])]
      simp [find_index_in_dict, hl]
    · rw [List.find?_cons_of_neg _ (by simp [hl])]
      simp only [find_index_in_dict, hl, if_false]
      rw [← ih]
      cases hf : find_index_in_dict ls v with
      | none => simp [hf]
      | some j => simp [hf]

lemma first_in_log_eq_find (logs : List CheckinLog) :
    first_in_log logs = logs.find? isInPunch := by
  rw [first_in_log, find_index_in_dict_bind_getElem]
  rfl

lemma last_out_log_eq_find (logs : List CheckinLog) :
    last_out_log logs = logs.reverse.find? isOutPunch := by
  have hb := find_index_in_dict_bind_getElem "OUT" logs.reverse
  rw [last_out_log]
  cases hf : find_index_in_dict logs.reverse "OUT" with
  | none =>
    simp only [hf, Option.none_bind]
    simp only [hf, Option.none_bind] at hb
    exact hb
  | some i =>
    have hi : i < logs.length := by
      have := find_index_in_dict_lt hf
      simpa using this
    simp only [hf, Option.some_bind]
    simp only [hf, Option.some_bind] at hb
    rw [← List.getElem?_reverse hi]
    exact hb

lemma flushPair_of_out_none {s : StrictLoopState} (h : s.out_log = none) :
    flushPair s = s := by
  obtain ⟨sIn, sOut, sInT, sOutT, sTot⟩ := s
  cases sIn <;> simp_all [flushPair]

lemma getLast?_cons_elim {α : Type} (a : α) (ps : List α) :
    (a :: ps).getLast? = (ps.getLast?).elim (some a) some := by
  cases ps with
  | nil => rfl
  | cons b qs =>
    rw [List.getLast?_cons_cons]
    cases hq : (b :: qs).getLast? with
    | none => simp at hq
    | some p => rfl

/-- Invariant of the strict every-valid loop: starting from a state with no
pending OUT (and an `in_time` already recorded whenever an IN is pending),
folding the loop over `logs` and running the post-loop flush yields the
state whose total grew by the greedily paired deltas, whose `out_time` is
the OUT of the last completed pair (else the incoming one), and whose
`in_time` is the incoming one (else the first IN of `logs`). -/
lemma strict_loop_spec :
    ∀ (logs : List CheckinLog) (st : StrictLoopState),
      st.out_log = none → (st.in_log = none ∨ st.in_time ≠ none) →
      (finalFlush (logs.foldl strictStep st)).total
          = st.total + specPairsTotal (specStrictPairsAux st.in_log logs)
        ∧ (finalFlush (logs.foldl strictStep st)).out_time
          = ((specStrictPairsAux st.in_log logs).getLast?).elim st.out_time
              (fun p => some p.2.time)
        ∧ (finalFlush (logs.foldl strictStep st)).in_time
          = st.in_time.elim ((logs.find? isInPunch).map (·.time)) some := by
  intro logs
  induction logs with
  | nil =>
    intro st hout _
    obtain ⟨sIn, sOut, sInT, sOutT, sTot⟩ := st
    simp only at hout
    subst hout
    cases sIn <;> cases sInT <;>
      simp [finalFlush, specStrictPairsAux, specPairsTotal]
  | cons l ls ih =>
    intro st hout hin
    obtain ⟨sIn, sOut, sInT, sOutT, sTot⟩ := st
    simp only at hout hin
    subst hout
    have hstep : ∀ x, strictStep ⟨sIn, none, sInT, sOutT, sTot⟩ x
        = strictStepRest ⟨sIn, none, sInT, sOutT, sTot⟩ x := by
      intro x
      rw [strictStep, flushPair_of_out_none rfl]
    rw [List.foldl_cons, hstep]
    cases sIn with
    | none =>
      by_cases hl : l.log_type = some "IN"
      · have hrest : strictStepRest ⟨none, none, sInT, sOutT, sTot⟩ l
            = ⟨some l, none, if sInT = none then some l.time else sInT, sOutT, sTot⟩ := by
          simp [strictStepRest, hl]
        rw [hrest]
        have h2 := ih ⟨some l, none, if sInT = none then some l.time else sInT, sOutT, sTot⟩
          rfl (by right; cases sInT <;> simp)
        simp only at h2
        obtain ⟨ht, ho, hi⟩ := h2
        refine ⟨?_, ?_, ?_⟩
        · rw [ht]; simp [specStrictPairsAux, isInPunch, hl]
        · rw [ho]; simp [specStrictPairsAux, isInPunch, hl]
        · rw [hi]
          cases sInT with
          | none => simp [List.find?_cons, isInPunch, hl]
          | some t => simp
      · have hrest : strictStepRest ⟨none, none, sInT, sOutT, sTot⟩ l
            = ⟨none, none, sInT, sOutT, sTot⟩ := by
          simp [strictStepRest, hl]
        rw [hrest]
        have h2 := ih ⟨none, none, sInT, sOutT, sTot⟩ rfl (Or.inl rfl)
        simp only at h2
        obtain ⟨ht, ho, hi⟩ := h2
        refine ⟨?_, ?_, ?_⟩
        · rw [ht]; simp [specStrictPairsAux, isInPunch, hl]
        · rw [ho]; simp [specStrictPairsAux, isInPunch, hl]
        · rw [hi]
          cases sInT with
          | none => simp [List.find?_cons, isInPunch, hl]
          | some t => simp
    | some i =>
      obtain ⟨t, rfl⟩ : ∃ t, sInT = some t := by
        rcases hin with h | h
        · exact absurd h (by simp)
        · cases sInT with
          | none => exact absurd rfl h
          | some t => exact ⟨t, rfl⟩
      by_cases hl : l.log_type = some "OUT"
      · have hrest : strictStepRest ⟨some i, none, some t, sOutT, sTot⟩ l
            = ⟨some i, some l, some t, sOutT, sTot⟩ := by
          simp [strictStepRest, hl]
        rw [hrest]
        have hspec : specStrictPairsAux (some i) (l :: ls)
            = (i, l) :: specStrictPairsAux none ls := by
          simp [specStrictPairsAux, isOutPunch, hl]
        cases ls with
        | nil =>
          simp only [List.foldl_nil]
          have hff : finalFlush ⟨some i, some l, some t, sOutT, sTot⟩
              = ⟨some i, some l, some t, some l.time,
                  sTot + time_diff_in_hours i.time l.time⟩ := by
            simp [finalFlush]
          rw [hff, hspec]
          refine ⟨?_, ?_, ?_⟩
          · simp [specStrictPairsAux, specPairsTotal]
          · simp [specStrictPairsAux]
          · simp
        | cons l2 ls2 =>
          have hswap : List.foldl strictStep ⟨some i, some l, some t, sOutT, sTot⟩ (l2 :: ls2)
              = List.foldl strictStep
                  ⟨none, none, some t, some l.time, sTot + time_diff_in_hours i.time l.time⟩
                  (l2 :: ls2) := by
            rw [List.foldl_cons, List.foldl_cons]
            have : strictStep ⟨some i, some l, some t, sOutT, sTot⟩ l2
                = strictStep ⟨none, none, some t, some l.time,
                    sTot + time_diff_in_hours i.time l.time⟩ l2 := by
              rw [strictStep, strictStep]
              simp [flushPair]
            rw [this]
          rw [hswap]
          have h2 := ih ⟨none, none, some t, some l.time,
              sTot + time_diff_in_hours i.time l.time⟩ rfl (Or.inl rfl)
          simp only at h2
          obtain ⟨ht, ho, hi⟩ := h2
          refine ⟨?_, ?_, ?_⟩
          · rw [ht, hspec]
            simp [specPairsTotal]
            ring
          · rw [ho, hspec, getLast?_cons_elim]
            cases hq : (specStrictPairsAux none (l2 :: ls2)).getLast? <;> simp [hq]
          · rw [hi]; simp
      · have hrest : strictStepRest ⟨some i, none, some t, sOutT, sTot⟩ l
            = ⟨some i, none, some t, sOutT, sTot⟩ := by
          simp [strictStepRest, hl]
        rw [hrest]
        have h2 := ih ⟨some i, none, some t, sOutT, sTot⟩ rfl (by right; simp)
        simp only at h2
        obtain ⟨ht, ho, hi⟩ := h2
        refine ⟨?_, ?_, ?_⟩
        · rw [ht]; simp [specStrictPairsAux, isOutPunch, hl]
        · rw [ho]; simp [specStrictPairsAux, isOutPunch, hl]
        · rw [hi]; simp

/-- The strict every-valid computation realises the greedy pairing
specification. -/
lemma runStrictEveryValid_spec (logs : List CheckinLog) :
    (runStrictEveryValid logs).total = specPairsTotal (specStrictPairs logs)
      ∧ (runStrictEveryValid logs).out_time = specLastPairOutTime logs
      ∧ (runStrictEveryValid logs).in_time = specFirstInTime logs := by
  have h := strict_loop_spec logs ⟨none, none, none, none, 0⟩ rfl (Or.inl rfl)
  simp only at h
  obtain ⟨ht, ho, hi⟩ := h
  refine ⟨?_, ?_, ?_⟩
  · rw [runStrictEveryValid, ht, specStrictPairs]; ring
  · rw [runStrictEveryValid, ho, specLastPairOutTime, specStrictPairs]
    cases hq : (specStrictPairsAux none logs).getLast? <;> simp [hq]
  · rw [runStrictEveryValid, hi, specFirstInTime]
    rfl

lemma specAlternatingTotal_cons_cons (a b : CheckinLog) (rest : List CheckinLog) :
    specAlternatingTotal (a :: b :: rest)
      = time_diff_in_hours a.time b.time + specAlternatingTotal rest := by
  simp only [specAlternatingTotal]
  have hlen2 : (a :: b :: rest).length / 2 = rest.length / 2 + 1 := by
    simp only [List.length_cons]
    omega
  rw [hlen2, Finset.sum_range_succ']
  have harg : ∀ k : ℕ, (a :: b :: rest).getD (2 * (k + 1)) default
      = rest.getD (2 * k) default := by
    intro k
    have h2 : 2 * (k + 1) = (2 * k + 1) + 1 := by ring
    rw [h2, List.getD_cons_succ, List.getD_cons_succ]
  have harg2 : ∀ k : ℕ, (a :: b :: rest).getD (2 * (k + 1) + 1) default
      = rest.getD (2 * k + 1) default := by
    intro k
    have h2 : 2 * (k + 1) + 1 = (2 * k + 1 + 1) + 1 := by ring
    rw [h2, List.getD_cons_succ, List.getD_cons_succ]
  rw [Finset.sum_congr rfl fun k _ => by rw [harg k, harg2 k]]
  simp only [Nat.mul_zero, List.getD_cons_zero, List.getD_cons_succ]
  ring

lemma alternating_pairs_loop_spec :
    ∀ (n : ℕ) (logs : List CheckinLog), logs.length ≤ n → ∀ (total : ℚ),
      alternating_pairs_loop total logs = total + specAlternatingTotal logs := by
  intro n
  induction n with
  | zero =>
    intro logs hlen total
    have : logs = [] := List.length_eq_zero.mp (Nat.le_zero.mp hlen)
    subst this
    simp [alternating_pairs_loop, specAlternatingTotal]
  | succ n ih =>
    intro logs hlen total
    match logs with
    | [] => simp [alternating_pairs_loop, specAlternatingTotal]
    | [a] => simp [alternating_pairs_loop, specAlternatingTotal]
    | a :: b :: rest =>
      have hr : rest.length ≤ n := by
        simp only [List.length_cons] at hlen
        omega
      rw [alternating_pairs_loop, ih rest hr, specAlternatingTotal_cons_cons]
      ring

lemma foldl_double_append {α β : Type} (A B : α → List β) :
    ∀ (l : List α) (acc : List β),
      l.foldl (fun d x => (d ++ A x) ++ B x) acc
        = acc ++ l.flatMap (fun x => A x ++ B x) := by
  intro l
  induction l with
  | nil => intro acc; simp
  | cons x xs ih =>
    intro acc
    rw [List.foldl_cons, ih, List.flatMap_cons]
    simp [List.append_assoc]

/-- The report body loop produces exactly the specification rows. -/
lemma get_data_eq_specReportRows (filters : ReportFilters) (db : ReportDb) :
    get_data filters db = specReportRows filters db := by
  rw [get_data, specReportRows, foldl_double_append]
  rfl

/-- Full characterisation of `calculate_working_hours_by_shift_type` on a
list with a first IN and a last OUT punch. -/
lemma by_shift_type_eq_spec (is_saturday : Bool) (date : ℤ)
    (l0 : CheckinLog) (rest : List CheckinLog) (fi lo : CheckinLog)
    (hfi : (l0 :: rest).find? isInPunch = some fi)
    (hlo : (l0 :: rest).reverse.find? isOutPunch = some lo) :
    calculate_working_hours_by_shift_type is_saturday date (l0 :: rest)
      = some (specShiftTotal is_saturday l0.shift_start
            (if is_saturday = true then date + 43200 else l0.shift_end)
            fi.time lo.time,
          some fi.time, some lo.time) := by
  have h1 : first_in_log (l0 :: rest) = some fi := by
    rw [first_in_log_eq_find, hfi]
  have h2 : last_out_log (l0 :: rest) = some lo := by
    rw [last_out_log_eq_find, hlo]
  have hcond : ∀ (t : ℤ) (P : Prop),
      ((time_in_range 43200 48600 t = false ∧ 48600 < t ∧ P) ↔ (48600 < t ∧ P)) := by
    intro t P
    constructor
    · rintro ⟨_, h, p⟩
      exact ⟨h, p⟩
    · rintro ⟨h, p⟩
      refine ⟨?_, h, p⟩
      simp only [time_in_range, if_pos (by norm_num : (43200 : ℤ) ≤ 48600),
        Bool.and_eq_false_iff, decide_eq_false_iff_not]
      right
      omega
  simp only [calculate_working_hours_by_shift_type, h1, h2]
  cases is_saturday with
  | false =>
    simp only [Bool.false_eq_true, if_true, if_false, reduceIte,
      specShiftTotal, specClippedTotal, specLunchDeduction]
    rw [if_congr (hcond (lo.time % 86400 / 60 * 60) True) rfl rfl]
    split_ifs <;>
      simp only [Option.some.injEq, Prod.mk.injEq, and_true, true_and] <;>
      ring
  | true =>
    simp only [Bool.true_eq_false, if_true, if_false, reduceIte,
      specShiftTotal, specClippedTotal, specLunchDeduction]
    rw [if_congr (hcond (lo.time % 86400 / 60 * 60) False) rfl rfl]
    split_ifs <;>
      simp only [Option.some.injEq, Prod.mk.injEq, and_true, true_and] <;>
      ring

/-! ## Claim theorems -/

/-- C1 counterexample: for the single-OUT-punch list under the alternating
policy with `'First Check-in and Last Check-out'`, the code returns
`in_time = 100` (the first log's time) although the list contains no IN
punch at all, contradicting "in_time is the timestamp of the first IN
punch ... (in_time/out_time are None ... when no valid punch pairing
exists)". -/
theorem calculate_working_hours_first_in_counterexample :
    calculate_working_hours [singleOutLog]
        "Alternating entries as IN and OUT during the same shift"
        "First Check-in and Last Check-out"
      = some (0, some 100, none)
    ∧ List.find? isInPunch [singleOutLog] = none := by
  have hd : time_diff_in_hours 100 100 = 0 := by
    rw [time_diff_in_hours, pyRound2]
    norm_num
  have hr : calculate_working_hours [singleOutLog]
      "Alternating entries as IN and OUT during the same shift"
      "First Check-in and Last Check-out"
      = some (time_diff_in_hours 100 100, some 100, none) := rfl
  exact ⟨by rw [hr, hd], rfl⟩

/-- C1 (amended): `calculate_working_hours` on a non-empty chronological
list returns, per policy: under the alternating policy, `in_time` is the
first log's timestamp regardless of its log type and `out_time` is the
last log's timestamp when the list has at least two entries (`None`
otherwise), with the total per calculation type; under the strict policy
with `'First Check-in and Last Check-out'`, the first-IN/last-OUT
timestamps and their delta when both punches exist (`0`/`None`/`None`
otherwise); under the strict policy with `'Every Valid Check-in and
Check-out'`, the greedily paired total, the first IN timestamp when an IN
exists, and the OUT timestamp of the last completed pair. -/
theorem calculate_working_hours_in_out_by_policy
    (l0 : CheckinLog) (rest : List CheckinLog) :
    (calculate_working_hours (l0 :: rest)
        "Alternating entries as IN and OUT during the same shift"
        "First Check-in and Last Check-out"
      = some (time_diff_in_hours l0.time
            (((l0 :: rest).getLast (List.cons_ne_nil l0 rest)).time),
          some l0.time,
          if 2 ≤ (l0 :: rest).length
            then some (((l0 :: rest).getLast (List.cons_ne_nil l0 rest)).time)
            else none))
  ∧ (calculate_working_hours (l0 :: rest)
        "Alternating entries as IN and OUT during the same shift"
        "Every Valid Check-in and Check-out"
      = some (specAlternatingTotal (l0 :: rest), some l0.time,
          if 2 ≤ (l0 :: rest).length
            then some (((l0 :: rest).getLast (List.cons_ne_nil l0 rest)).time)
            else none))
  ∧ (calculate_working_hours (l0 :: rest)
        "Strictly based on Log Type in Employee Checkin"
        "First Check-in and Last Check-out"
      = match (l0 :: rest).find? isInPunch, (l0 :: rest).reverse.find? isOutPunch with
        | some fi, some lo =>
            some (time_diff_in_hours fi.time lo.time, some fi.time, some lo.time)
        | _, _ => some (0, none, none))
  ∧ (calculate_working_hours (l0 :: rest)
        "Strictly based on Log Type in Employee Checkin"
        "Every Valid Check-in and Check-out"
      = some (specPairsTotal (specStrictPairs (l0 :: rest)),
          specFirstInTime (l0 :: rest), specLastPairOutTime (l0 :: rest))) := by
  refine ⟨rfl, ?_, ?_, ?_⟩
  · have hloop := alternating_pairs_loop_spec (l0 :: rest).length (l0 :: rest) le_rfl 0
    rw [zero_add] at hloop
    have hr : calculate_working_hours (l0 :: rest)
        "Alternating entries as IN and OUT during the same shift"
        "Every Valid Check-in and Check-out"
        = some (alternating_pairs_loop 0 (l0 :: rest), some l0.time,
            if 2 ≤ (l0 :: rest).length
              then some (((l0 :: rest).getLast (List.cons_ne_nil l0 rest)).time)
              else none) := rfl
    rw [hr, hloop]
  · have hr : calculate_working_hours (l0 :: rest)
        "Strictly based on Log Type in Employee Checkin"
        "First Check-in and Last Check-out"
        = match first_in_log (l0 :: rest), last_out_log (l0 :: rest) with
          | some fi, some lo =>
              some (time_diff_in_hours fi.time lo.time, some fi.time, some lo.time)
          | _, _ => some (0, none, none) := rfl
    rw [hr, first_in_log_eq_find, last_out_log_eq_find]
  · have hr : calculate_working_hours (l0 :: rest)
        "Strictly based on Log Type in Employee Checkin"
        "Every Valid Check-in and Check-out"
        = some ((runStrictEveryValid (l0 :: rest)).total,
            (runStrictEveryValid (l0 :: rest)).in_time,
            (runStrictEveryValid (l0 :: rest)).out_time) := rfl
    obtain ⟨ht, ho, hi⟩ := runStrictEveryValid_spec (l0 :: rest)
    rw [hr, ht, ho, hi]

/-- C4: under `'Every Valid Check-in and Check-out'` the total is the sum
of the paired deltas — consecutive pairs `(logs[2*i], logs[2*i+1])` under
the alternating policy, and each IN matched with the next following OUT
under the strict policy. -/
theorem calculate_working_hours_every_valid_totals
    (l0 : CheckinLog) (rest : List CheckinLog) :
    ((calculate_working_hours (l0 :: rest)
        "Alternating entries as IN and OUT during the same shift"
        "Every Valid Check-in and Check-out").map (fun r => r.1)
      = some (specAlternatingTotal (l0 :: rest)))
  ∧ ((calculate_working_hours (l0 :: rest)
        "Strictly based on Log Type in Employee Checkin"
        "Every Valid Check-in and Check-out").map (fun r => r.1)
      = some (specPairsTotal (specStrictPairs (l0 :: rest)))) := by
  constructor
  · have hloop := alternating_pairs_loop_spec (l0 :: rest).length (l0 :: rest) le_rfl 0
    rw [zero_add] at hloop
    have hr : calculate_working_hours (l0 :: rest)
        "Alternating entries as IN and OUT during the same shift"
        "Every Valid Check-in and Check-out"
        = some (alternating_pairs_loop 0 (l0 :: rest), some l0.time,
            if 2 ≤ (l0 :: rest).length
              then some (((l0 :: rest).getLast (List.cons_ne_nil l0 rest)).time)
              else none) := rfl
    rw [hr, Option.map_some', hloop]
  · have hr : calculate_working_hours (l0 :: rest)
        "Strictly based on Log Type in Employee Checkin"
        "Every Valid Check-in and Check-out"
        = some ((runStrictEveryValid (l0 :: rest)).total,
            (runStrictEveryValid (l0 :: rest)).in_time,
            (runStrictEveryValid (l0 :: rest)).out_time) := rfl
    obtain ⟨ht, _, _⟩ := runStrictEveryValid_spec (l0 :: rest)
    rw [hr, Option.map_some', ht]

/-- C2 counterexample: for an IN at second 0 (shift start at second 25)
and an OUT at second 50, the code computes
`round2(50s) - round2(25s) = 0.01 - 0.01 = 0`, while the hours of the
single interval from `max(first IN, shift_start) = 25` to
`min(last OUT, shift_end) = 50` are `round2(25s) = 0.01`: per-term
rounding breaks the claimed single-interval equality (no lunch deduction
applies on either reading, the OUT being at midnight). -/
theorem by_shift_type_clipping_counterexample :
    calculate_working_hours_by_shift_type false 0 [earlyIn, earlyOut]
      = some (0, some 0, some 50)
    ∧ time_diff_in_hours 25 50 = 1/100
    ∧ (0 : ℚ) ≠ 1/100 := by
  have h1 : time_diff_in_hours 0 50 = 1/100 := by
    rw [time_diff_in_hours, pyRound2]
    norm_num
  have h2 : time_diff_in_hours 0 25 = 1/100 := by
    rw [time_diff_in_hours, pyRound2]
    norm_num
  have h3 : time_diff_in_hours 25 50 = 1/100 := by
    rw [time_diff_in_hours, pyRound2]
    norm_num
  have hr : calculate_working_hours_by_shift_type false 0 [earlyIn, earlyOut]
      = some (time_diff_in_hours 0 50 - time_diff_in_hours 0 25, some 0, some 50) := rfl
  refine ⟨?_, h3, by norm_num⟩
  rw [hr, h1, h2]
  norm_num

/-- C2 (amended): on a list whose first element carries the shift
boundaries and which has a first IN and a last OUT punch, the total is the
first-IN-to-last-OUT delta minus the before-shift-start delta (when the IN
precedes the shift start) minus the after-shift-end delta (when the OUT
exceeds the shift end) — each delta rounded to two decimals separately —
minus the lunch deduction when that applies; it is `0` when the first IN is
at or after the shift end; and on Saturdays the effective shift end is noon
of the current day instead of the row's `shift_end`. -/
theorem calculate_working_hours_by_shift_type_spec (is_saturday : Bool) (date : ℤ)
    (l0 : CheckinLog) (rest : List CheckinLog) (fi lo : CheckinLog)
    (hfi : (l0 :: rest).find? isInPunch = some fi)
    (hlo : (l0 :: rest).reverse.find? isOutPunch = some lo) :
    calculate_working_hours_by_shift_type is_saturday date (l0 :: rest)
      = some (specShiftTotal is_saturday l0.shift_start
            (if is_saturday = true then date + 43200 else l0.shift_end)
            fi.time lo.time,
          some fi.time, some lo.time) :=
  by_shift_type_eq_spec is_saturday date l0 rest fi lo hfi hlo

/-- C2 witness: a concrete non-Saturday run with clipping at the shift end. -/
theorem calculate_working_hours_by_shift_type_spec_witness :
    calculate_working_hours_by_shift_type false 0 [morningIn, eveningOut]
      = some (specShiftTotal false 36000
            (if (false : Bool) = true then (0 : ℤ) + 43200 else 61200)
          36000 64800, some 36000, some 64800) :=
  calculate_working_hours_by_shift_type_spec false 0 morningIn [eveningOut]
    morningIn eveningOut rfl rfl

/-- C3 counterexample: the last OUT punch at 12:30:00 falls in the
afternoon, yet the code subtracts nothing (12:30 lies inside the
12:00–13:30 midday window): the returned total is the undeducted `2.5`,
not `2.5 - 1.5`. -/
theorem by_shift_type_lunch_counterexample :
    calculate_working_hours_by_shift_type false 0 [morningIn, middayOut]
      = some (5/2, some 36000, some 45000)
    ∧ (43200 : ℤ) ≤ 45000 % 86400
    ∧ (5/2 : ℚ) ≠ 5/2 - 3/2 := by
  have h1 : time_diff_in_hours 36000 45000 = 5/2 := by
    rw [time_diff_in_hours, pyRound2]
    norm_num
  have hr : calculate_working_hours_by_shift_type false 0 [morningIn, middayOut]
      = some (time_diff_in_hours 36000 45000, some 36000, some 45000) := rfl
  refine ⟨by rw [hr, h1], by norm_num, by norm_num⟩

/-- C3 (amended): when the list yields a first IN punch before the
effective shift end and a last OUT punch, the function subtracts the fixed
1.5-hour lunch interval exactly when the OUT punch's time of day,
truncated to the minute, is strictly after 13:30:00 and the day is not a
Saturday; otherwise it subtracts nothing. -/
theorem by_shift_type_lunch_deduction (is_saturday : Bool) (date : ℤ)
    (l0 : CheckinLog) (rest : List CheckinLog) (fi lo : CheckinLog)
    (hfi : (l0 :: rest).find? isInPunch = some fi)
    (hlo : (l0 :: rest).reverse.find? isOutPunch = some lo)
    (hin : fi.time < (if is_saturday = true then date + 43200 else l0.shift_end)) :
    (calculate_working_hours_by_shift_type is_saturday date (l0 :: rest)).map
        (fun r => r.1)
      = some (specClippedTotal l0.shift_start
            (if is_saturday = true then date + 43200 else l0.shift_end)
            fi.time lo.time
          - (if 48600 < lo.time % 86400 / 60 * 60 ∧ is_saturday = false
              then 3/2 else 0)) := by
  rw [by_shift_type_eq_spec is_saturday date l0 rest fi lo hfi hlo,
    Option.map_some']
  rw [specShiftTotal, if_neg (not_le.mpr hin), specLunchDeduction]

/-- C3 witness: a concrete midday-OUT run where no deduction applies. -/
theorem by_shift_type_lunch_deduction_witness :
    (calculate_working_hours_by_shift_type false 0 [morningIn, middayOut]).map
        (fun r => r.1)
      = some (specClippedTotal 36000
            (if (false : Bool) = true then (0 : ℤ) + 43200 else 61200)
          36000 45000
          - (if 48600 < (45000 : ℤ) % 86400 / 60 * 60 ∧ (false : Bool) = false
              then 3/2 else 0)) :=
  by_shift_type_lunch_deduction false 0 morningIn [middayOut] morningIn middayOut
    rfl rfl (by norm_num [morningIn])

/-- C5: at the failing input — a `Present` attendance whose
`Attendance(...).submit()` raises a validation error — the code rolls the
database back and marks the checkin skipped, but the two-positional-argument
call to `add_comment_in_checkins` hits the second, three-parameter
definition that shadows the intended two-parameter one, so a `TypeError`
escapes to the caller and no comment is stored, contradicting both the
claim and the function's own docstring ("no exception is thrown"). -/
theorem mark_attendance_exception_behaviour :
    mark_attendance_and_link_log [⟨"HR-CHK-0001", "HR-EMP-0001"⟩] "Present" 738000
        none false false none none none (some "Attendance already marked")
        "HR-ATT-0001" ⟨[], [], [], []⟩
      = (.error (.typeError
            "add_comment_in_checkins() missing 1 required positional argument: overlapping"),
         ⟨[], ["HR-CHK-0001"], [], []⟩) := rfl

/-- C6 counterexample: with one matching employee and one in-range leave
application the report returns a non-empty data list, yet the fourth
component of `execute`'s result is `None` — the `get_chart_data` call is
commented out — so no "chart output for that data" is produced. -/
theorem execute_chart_counterexample :
    execute reportFilters0 reportDb0
      = .ok (get_columns, [leave_row false reportEmployee0 reportLeave0], none, none)
    ∧ ([leave_row false reportEmployee0 reportLeave0] : List ReportRow) ≠ []
    ∧ ∀ chart : Unit, execute reportFilters0 reportDb0
        ≠ .ok (get_columns, [leave_row false reportEmployee0 reportLeave0], none,
            some chart) := by
  refine ⟨rfl, by simp, ?_⟩
  intro chart h
  have h0 : (Except.ok (get_columns,
        [leave_row false reportEmployee0 reportLeave0], none,
        (none : Option Unit)) :
          Except String (List ReportColumn × List ReportRow × Option Unit × Option Unit))
      = .ok (get_columns, [leave_row false reportEmployee0 reportLeave0], none,
          some chart) :=
    (rfl : execute reportFilters0 reportDb0 = _).symm.trans h
  simp at h0

/-- C6 (amended): for filters with `from_date < to_date` the report
returns the column definitions together with, per matching active
employee, a header row when consolidation applies and one data row per
leave application whose dates fall inside the filter range (ordered by
posting date descending) — and a `None` message slot and a `None` chart,
chart generation being disabled. -/
theorem execute_report_rows_spec (filters : ReportFilters) (db : ReportDb)
    (h : filters.from_date < filters.to_date) :
    execute filters db = .ok (get_columns, specReportRows filters db, none, none) := by
  rw [execute, if_neg (not_le.mpr h), get_data_eq_specReportRows]

/-- C6 witness: the concrete one-employee one-leave database. -/
theorem execute_report_rows_spec_witness :
    reportFilters0.from_date < reportFilters0.to_date
    ∧ execute reportFilters0 reportDb0
        = .ok (get_columns, specReportRows reportFilters0 reportDb0, none, none) :=
  ⟨by norm_num [reportFilters0],
   execute_report_rows_spec reportFilters0 reportDb0 (by norm_num [reportFilters0])⟩

/-- C7: `fetch_shift` stores the covering shift's name and its actual and
scheduled windows when the checkin is not linked to an attendance, clears
the shift field when no active shift covers the punch, and throws when the
covering shift is strictly log-typed but the checkin has no log type and
auto attendance is not skipped. -/
theorem fetch_shift_behaviour (self : EmployeeCheckin) (st : ShiftTimings) :
    (fetch_shift self none = .ok { self with shift := none })
  ∧ (¬ (st.determine_check_in_and_check_out
          = "Strictly based on Log Type in Employee Checkin"
        ∧ self.log_type = none ∧ self.skip_auto_attendance = false) →
      self.attendance = none →
      fetch_shift self (some st) = .ok { self with
        shift := some st.shift_type_name
        shift_actual_start := some st.actual_start
        shift_actual_end := some st.actual_end
        shift_start := some st.start_datetime
        shift_end := some st.end_datetime })
  ∧ (st.determine_check_in_and_check_out
        = "Strictly based on Log Type in Employee Checkin" →
      self.log_type = none → self.skip_auto_attendance = false →
      ∃ e, fetch_shift self (some st) = .error e) := by
  refine ⟨rfl, ?_, ?_⟩
  · intro hnc hatt
    simp only [fetch_shift]
    rw [if_neg hnc, if_pos hatt]
  · intro hd hl hs
    exact ⟨_, by simp only [fetch_shift]; rw [if_pos ⟨hd, hl, hs⟩]⟩

/-- C7 witness: the three branches at concrete documents. -/
theorem fetch_shift_behaviour_witness :
    (fetch_shift sampleCheckin none = .ok { sampleCheckin with shift := none })
  ∧ (fetch_shift sampleCheckin (some sampleStrictShift)
      = .ok { sampleCheckin with
          shift := some sampleStrictShift.shift_type_name
          shift_actual_start := some sampleStrictShift.actual_start
          shift_actual_end := some sampleStrictShift.actual_end
          shift_start := some sampleStrictShift.start_datetime
          shift_end := some sampleStrictShift.end_datetime })
  ∧ (∃ e, fetch_shift sampleCheckinNoLogType (some sampleStrictShift) = .error e) :=
  ⟨(fetch_shift_behaviour sampleCheckin sampleStrictShift).1,
   (fetch_shift_behaviour sampleCheckin sampleStrictShift).2.1
     (by simp [sampleCheckin]) rfl,
   (fetch_shift_behaviour sampleCheckinNoLogType sampleStrictShift).2.2 rfl rfl rfl⟩

/-- C8: `validate_duplicate_log` throws exactly when another checkin row
(same employee, same timestamp, same log type, different name) exists; in
particular a same-timestamp punch with a different log type passes. -/
theorem validate_duplicate_log_iff (db : List CheckinRow) (self : CheckinRow) :
    (∃ e, validate_duplicate_log db self = .error e)
      ↔ ∃ d ∈ db, d.name ≠ self.name ∧ d.employee = self.employee
          ∧ d.time = self.time ∧ d.log_type = self.log_type := by
  constructor
  · rintro ⟨e, he⟩
    rw [validate_duplicate_log] at he
    cases hf : db.find? (duplicate_log_filter self) with
    | none =>
      rw [hf] at he
      exact absurd he (by simp)
    | some doc =>
      have hp := List.find?_some hf
      have hm := List.mem_of_find?_eq_some hf
      rw [duplicate_log_filter, decide_eq_true_eq] at hp
      exact ⟨doc, hm, hp.2.2.1, hp.1, hp.2.1, hp.2.2.2⟩
  · rintro ⟨d, hm, hname, hemp, htime, hlog⟩
    rw [validate_duplicate_log]
    cases hf : db.find? (duplicate_log_filter self) with
    | some doc => exact ⟨_, rfl⟩
    | none =>
      have hnone := List.find?_eq_none.mp hf d hm
      rw [duplicate_log_filter, decide_eq_true_eq] at hnone
      exact absurd ⟨hemp, htime, hname, hlog⟩ hnone

/-- C9: the report's `execute` throws exactly when
`to_date <= from_date` (equal dates included), and any returned 4-tuple
has `None` as its third and fourth components. -/
theorem execute_error_iff_none_components (filters : ReportFilters) (db : ReportDb) :
    ((∃ e, execute filters db = .error e) ↔ filters.to_date ≤ filters.from_date)
      ∧ noMessageNoChart (execute filters db) := by
  by_cases h : filters.to_date ≤ filters.from_date
  · refine ⟨⟨fun _ => h, fun _ => ⟨_, by rw [execute, if_pos h]⟩⟩, ?_⟩
    rw [execute, if_pos h]
    trivial
  · refine ⟨⟨?_, fun hh => absurd hh h⟩, ?_⟩
    · rintro ⟨e, he⟩
      rw [execute, if_neg h] at he
      exact absurd he (by simp)
    · rw [execute, if_neg h]
      exact ⟨rfl, rfl⟩

/-- C10: `calculate_working_hours` leaves the caller's list unchanged
under every policy combination: the only mutating statements run on the
fresh copy made by `logs = logs[:]`, so the caller's heap cell is intact. -/
theorem calculate_working_hours_preserves_caller_list
    (logs : List CheckinLog) (check_in_out_type working_hours_calc_type : String) :
    caller_list_after_calculate_working_hours logs check_in_out_type
        working_hours_calc_type = logs := by
  rw [caller_list_after_calculate_working_hours]
  split
  · rfl
  · rfl

end Hrms
